import Mathlib

/-!
Verification of the backtest simulation and risk-accounting core of the
trading repository.

This file is a shallow embedding in Lean 4 of the parts of the code that
the specification makes claims about: the position/trade ledger
(src/backtesting/backtest_engine.py), the risk-metrics calculator
(src/strategies/risk_manager.py), the volatility-adaptive signal
generator (src/strategies/volatility_adaptive_strategy.py), and the
performance statistics (backtest_engine.py).

Embedding conventions:
  * Monetary amounts, prices and rates are rational numbers; the Python
    floats are taken at their mathematical value.
  * Quantities whose code computes logarithms or square roots
    (volatility, the final branch of the Sortino computation) live over
    the reals.
  * Python dicts keyed by symbol are association lists in insertion
    order: membership tests, lookup of the (unique) entry, insertion of
    a fresh key at the end, and deletion of the first matching entry.
  * A Python operation that can raise (ZeroDivisionError) is embedded
    with Option, returning none exactly where the exception is raised.
  * Timestamps are opaque natural numbers: no claim computes with them.
-/

namespace Backtest

abbrev Symbol := String

/-- Trading side; the code stores the strings long / short. -/
inductive Side where
  | long : Side
  | short : Side
  deriving DecidableEq, Repr

/-- Position dataclass of backtest_engine.py (lines 17-26). -/
structure Position where
  symbol : Symbol
  side : Side
  entry_price : ℚ
  amount : ℚ
  leverage : ℚ
  timestamp : ℕ
  take_profit : Option ℚ
  stop_loss : Option ℚ
  deriving DecidableEq, Repr

/-- Trade dataclass of backtest_engine.py (lines 28-40). -/
structure Trade where
  symbol : Symbol
  side : Side
  entry_price : ℚ
  exit_price : ℚ
  amount : ℚ
  entry_time : ℕ
  exit_time : ℕ
  pnl : ℚ
  fees : ℚ
  funding_cost : ℚ
  leverage : ℚ
  deriving DecidableEq, Repr

/-- Mutable state of BacktestEngine (lines 42-57).  The metrics cache
set by calculate_metrics is not modelled: no claim reads it, and
calculate_metrics touches no other field. -/
structure BacktestEngine where
  initial_capital : ℚ
  capital : ℚ
  trading_fee : ℚ
  slippage : ℚ
  positions : List (Symbol × Position)
  trades : List Trade
  equity_curve : List (ℕ × ℚ)
  deriving DecidableEq, Repr

/-- Constructor of BacktestEngine (lines 43-57); the code defaults are
trading_fee = 0.001 and slippage = 0.0005. -/
def mkEngine (initial_capital trading_fee slippage : ℚ) : BacktestEngine :=
  { initial_capital := initial_capital
    capital := initial_capital
    trading_fee := trading_fee
    slippage := slippage
    positions := []
    trades := []
    equity_curve := [] }

/-- The Python membership test symbol in self.positions. -/
def hasPosition (e : BacktestEngine) (symbol : Symbol) : Bool :=
  e.positions.any (fun p => p.1 == symbol)

/-- Position record built by the success branch of open_position
(lines 114-124): the stored entry price carries slippage toward the
long side paying more and the short side receiving less. -/
def entryPosition (slippage : ℚ) (symbol : Symbol) (side : Side)
    (price amount leverage : ℚ) (timestamp : ℕ)
    (take_profit stop_loss : Option ℚ) : Position :=
  { symbol := symbol
    side := side
    entry_price := price * (1 + (if side = Side.long then slippage else - slippage))
    amount := amount
    leverage := leverage
    timestamp := timestamp
    take_profit := take_profit
    stop_loss := stop_loss }

/-- BacktestEngine.open_position (lines 81-126), returning the Bool
result together with the post state. -/
def open_position (e : BacktestEngine) (symbol : Symbol) (side : Side)
    (price amount leverage : ℚ) (timestamp : ℕ)
    (take_profit stop_loss : Option ℚ) : Bool × BacktestEngine :=
  if hasPosition e symbol then (false, e)
  else
    let position_value := price * amount
    let required_margin := position_value / leverage
    if required_margin > e.capital then (false, e)
    else
      let fees := position_value * e.trading_fee
      (true,
        { e with
          capital := e.capital - fees
          positions := e.positions ++
            [(symbol, entryPosition e.slippage symbol side price amount leverage
                timestamp take_profit stop_loss)] })

/-- BacktestEngine.close_position (lines 128-176), returning the
Optional Trade together with the post state. -/
def close_position (e : BacktestEngine) (symbol : Symbol) (price : ℚ)
    (timestamp : ℕ) (funding_cost : ℚ) : Option Trade × BacktestEngine :=
  match e.positions.find? (fun p => p.1 == symbol) with
  | none => (none, e)
  | some pr =>
    let position := pr.2
    let executed_price :=
      price * (1 - (if position.side = Side.long then e.slippage else - e.slippage))
    let pnl :=
      if position.side = Side.long then
        (executed_price - position.entry_price) * position.amount
      else
        (position.entry_price - executed_price) * position.amount
    let position_value := executed_price * position.amount
    let fees := position_value * e.trading_fee
    let trade : Trade :=
      { symbol := symbol
        side := position.side
        entry_price := position.entry_price
        exit_price := executed_price
        amount := position.amount
        entry_time := position.timestamp
        exit_time := timestamp
        pnl := pnl
        fees := fees
        funding_cost := funding_cost
        leverage := position.leverage }
    (some trade,
      { e with
        capital := e.capital + pnl - fees - funding_cost
        trades := e.trades ++ [trade]
        positions := e.positions.eraseP (fun p => p.1 == symbol) })

/-- Unrealized profit and loss formula used inside update_equity
(lines 186-189). -/
def unrealized_pnl (position : Position) (current_price : ℚ) : ℚ :=
  if position.side = Side.long then
    (current_price - position.entry_price) * position.amount
  else
    (position.entry_price - current_price) * position.amount

/-- BacktestEngine.update_equity (lines 178-192): positions whose
symbol is absent from the price dict are skipped by the membership
test of line 184. -/
def update_equity (e : BacktestEngine) (timestamp : ℕ)
    (prices : List (Symbol × ℚ)) : BacktestEngine :=
  let total_equity := e.positions.foldl
    (fun acc p =>
      match prices.lookup p.1 with
      | some current_price => acc + unrealized_pnl p.2 current_price
      | none => acc)
    e.capital
  { e with equity_curve := e.equity_curve ++ [(timestamp, total_equity)] }

/-- Concrete engine of Scenario A: initial capital 1000, zero fee,
zero slippage. -/
def zeroFeeEngine : BacktestEngine := mkEngine 1000 0 0

/-- Scenario A first step: open long at requested price 100, amount 1,
leverage 1. -/
def zeroFeeOpened : Bool × BacktestEngine :=
  open_position zeroFeeEngine "BTC" Side.long 100 1 1 0 none none

/-- Scenario A second step: close at price 110 with no funding cost. -/
def zeroFeeClosed : Option Trade × BacktestEngine :=
  close_position zeroFeeOpened.2 "BTC" 110 1 0

/-- Concrete engine with the code default trading_fee = 0.001 and zero
slippage, used to exhibit the unrecorded entry fee. -/
def feeEngine : BacktestEngine := mkEngine 1000 (1/1000) 0

/-- Open long at requested price 100, amount 1, leverage 1 on the
fee-charging engine. -/
def feeOpened : Bool × BacktestEngine :=
  open_position feeEngine "BTC" Side.long 100 1 1 0 none none

/-- Close the fee-charging run at price 110 with no funding cost. -/
def feeClosed : Option Trade × BacktestEngine :=
  close_position feeOpened.2 "BTC" 110 1 0

/-- One engine lifetime: any sequence of ledger operations starting
from a freshly constructed BacktestEngine.  calculate_metrics mutates
only the unmodelled metrics cache, so its step keeps the state. -/
inductive Reachable : BacktestEngine → Prop where
  | init (initial_capital trading_fee slippage : ℚ) :
      Reachable (mkEngine initial_capital trading_fee slippage)
  | open_step (e : BacktestEngine) (symbol : Symbol) (side : Side)
      (price amount leverage : ℚ) (ts : ℕ) (tp sl : Option ℚ) :
      Reachable e →
      Reachable (open_position e symbol side price amount leverage ts tp sl).2
  | close_step (e : BacktestEngine) (symbol : Symbol) (price : ℚ) (ts : ℕ)
      (funding_cost : ℚ) :
      Reachable e → Reachable (close_position e symbol price ts funding_cost).2
  | equity_step (e : BacktestEngine) (ts : ℕ) (prices : List (Symbol × ℚ)) :
      Reachable e → Reachable (update_equity e ts prices)
  | metrics_step (e : BacktestEngine) : Reachable e → Reachable e

/-- Running maximum with initial accumulator, the tail step of pandas
Series.cummax used on line 229 of backtest_engine.py. -/
def cummax : ℚ → List ℚ → List ℚ
  | _, [] => []
  | m, x :: xs => max m x :: cummax (max m x) xs

/-- pandas equity_curve.cummax(): elementwise running maximum. -/
def rolling_max : List ℚ → List ℚ
  | [] => []
  | x :: xs => x :: cummax x xs

/-- Elementwise (rolling_max − equity) / rolling_max of line 230. -/
def drawdowns (equity_curve : List ℚ) : List ℚ :=
  (rolling_max equity_curve).zipWith (fun m x => (m - x) / m) equity_curve

/-- pandas Series.max() on a nonempty series; the empty case (NaN in
pandas) is mapped to 0 and is outside every claim. -/
def seriesMax : List ℚ → ℚ
  | [] => 0
  | x :: xs => xs.foldl max x

/-- BacktestEngine.calculate_max_drawdown (lines 226-231). -/
def calculate_max_drawdown (equity_curve : List ℚ) : ℚ :=
  seriesMax (drawdowns equity_curve)

/-- Configuration state of RiskManager (risk_manager.py lines 17-33);
only the fields the claims read are modelled. -/
structure RiskManager where
  initial_capital : ℚ
  max_leverage : ℚ
  margin_buffer : ℚ
  deriving DecidableEq, Repr

/-- RiskManager constructor defaults: max_leverage = 5,
margin_buffer = 0.2. -/
def mkRiskManager (initial_capital : ℚ) : RiskManager :=
  { initial_capital := initial_capital
    max_leverage := 5
    margin_buffer := 1/5 }

/-- RiskManager.calculate_liquidation_risk (lines 54-64); the local
Python variable margin_buffer that shadows the field is rendered as
buffer. -/
def calculate_liquidation_risk (rm : RiskManager) (mr volatility : ℚ) : ℚ :=
  let buffer := mr - rm.margin_buffer
  if buffer ≤ 0 then 1
  else
    let risk_score := volatility * rm.max_leverage / buffer
    min (max risk_score 0) 1

/-- Liquidation-risk scoring as the specification words it: buffer =
margin_ratio − margin_buffer, risk 1.0 on nonpositive buffer, else
volatility * leverage / buffer clamped to the unit interval. -/
def spec_liquidation_risk (mr volatility leverage margin_buf : ℚ) : ℚ :=
  if mr - margin_buf ≤ 0 then 1
  else min (max (volatility * leverage / (mr - margin_buf)) 0) 1

/-- Configuration of VolatilityAdaptiveStrategy
(volatility_adaptive_strategy.py lines 11-28); only the fields
calculate_position_size reads are modelled. -/
structure VolatilityAdaptiveStrategy where
  vol_threshold : ℚ
  max_position_pct : ℚ
  max_leverage : ℚ
  deriving DecidableEq, Repr

/-- Constructor defaults: vol_threshold = 0.02, max_position_pct =
0.6, max_leverage = 3.0. -/
def mkStrategy : VolatilityAdaptiveStrategy :=
  { vol_threshold := 1/50
    max_position_pct := 3/5
    max_leverage := 3 }

/-- VolatilityAdaptiveStrategy.calculate_position_size (lines 49-64).
Python float division raises ZeroDivisionError on a zero denominator,
so the function is embedded with Option: none at each of the three
divisions whose denominator is zero, in evaluation order vol_scalar
(volatility / vol_threshold), the leverage cap (2 / volatility), and
the final division by price.  There is no special case for zero
volatility in the source: line 61 always evaluates 2 / volatility. -/
def calculate_position_size (s : VolatilityAdaptiveStrategy)
    (capital price volatility : ℚ) : Option (ℚ × ℚ) :=
  if s.vol_threshold = 0 then none
  else if volatility = 0 then none
  else if price = 0 then none
  else
    let vol_scalar := max (1/5) (1 - volatility / s.vol_threshold)
    let max_position_value := capital * s.max_position_pct * vol_scalar * (1/2)
    let leverage := min s.max_leverage (2 / volatility)
    some ((max_position_value * leverage) / price, leverage)

/-- Arithmetic mean of a series, numpy and pandas mean. -/
noncomputable def mean (l : List ℝ) : ℝ := l.sum / l.length

/-- numpy std: population standard deviation (ddof = 0). -/
noncomputable def npStd (l : List ℝ) : ℝ :=
  Real.sqrt ((l.map (fun x => (x - mean l)^2)).sum / l.length)

/-- pandas Series.std: sample standard deviation (ddof = 1); a
one-element series gives NaN in pandas, rendered here by the Lean
division-by-zero convention on an unreachable branch of the claims. -/
noncomputable def sampleStd (l : List ℝ) : ℝ :=
  Real.sqrt ((l.map (fun x => (x - mean l)^2)).sum / ((l.length : ℝ) - 1))

/-- BacktestEngine.calculate_sortino_ratio (lines 241-250); the code
default risk_free_rate is 0.02.  The value ⊤ of WithTop renders the
np.inf sentinel; every finite result is a real coerced into
WithTop ℝ. -/
noncomputable def calculate_sortino (returns : List ℚ)
    (risk_free_rate : ℚ) : WithTop ℝ :=
  if returns.length < 2 then ((0:ℝ) : WithTop ℝ)
  else
    let excess_returns := returns.map (fun r => (r:ℝ) - (risk_free_rate:ℝ) / 252)
    let downside_returns := returns.filter (fun r => r < 0)
    if downside_returns.length < 1 then ⊤
    else ((Real.sqrt 252 * mean excess_returns /
      sampleStd (downside_returns.map (fun r => (r:ℝ)))) : ℝ)

/-- BacktestEngine.calculate_profit_factor (lines 252-256); ⊤ renders
np.inf. -/
def calculate_profit_factor (trades : List Trade) : WithTop ℚ :=
  let gross_profits := ((trades.filter (fun t => 0 < t.pnl)).map Trade.pnl).sum
  let gross_losses := |((trades.filter (fun t => t.pnl < 0)).map Trade.pnl).sum|
  if gross_losses ≠ 0 then ((gross_profits / gross_losses : ℚ) : WithTop ℚ)
  else ⊤

/-- Closed trade used to instantiate trade-list statements. -/
def demoTrade : Trade :=
  { symbol := "BTC"
    side := Side.long
    entry_price := 100
    exit_price := 110
    amount := 1
    entry_time := 0
    exit_time := 1
    pnl := 10
    fees := 0
    funding_cost := 0
    leverage := 1 }

/-- numpy diff: successive differences of a series. -/
def npDiff (l : List ℝ) : List ℝ := (l.zip l.tail).map (fun p => p.2 - p.1)

/-- Python slice price_history[-window:]; the window = 0 slice [-0:]
is the whole list. -/
def lastWindow (l : List ℝ) (window : ℕ) : List ℝ :=
  if window = 0 then l else l.drop (l.length - window)

/-- RiskManager.calculate_volatility (risk_manager.py lines 38-44):
0 when the history is shorter than the window, else np.std of
np.diff of np.log of the last window prices, annualized by the
constant sqrt(252) fixed in the source; the code default window is
20. -/
noncomputable def calculate_volatility (price_history : List ℝ) (window : ℕ) : ℝ :=
  if price_history.length < window then 0
  else npStd (npDiff ((lastWindow price_history window).map Real.log)) * Real.sqrt 252

/-- Volatility as the specification words it: standard deviation of
the log returns of the price window, scaled by the square root of
annualization_periods. -/
noncomputable def spec_volatility (annualization_periods : ℝ)
    (price_window : List ℝ) : ℝ :=
  npStd (npDiff (price_window.map Real.log)) * Real.sqrt annualization_periods

/-- C2: close_position computes realized P&L as (exit − entry) * size
for a long and (entry − exit) * size for a short, where the exit price
carries disadvantageous slippage, records an exit fee of exit_notional
* fee_rate, and moves capital by exactly P&L − exit_fee −
funding_cost; Scenario A (fee 0, slippage 0, open long 100, amount 1,
leverage 1, close 110) yields trade pnl 10 and a capital increase of
exactly 10. -/
theorem C2_close_position_formulas :
    (∀ (e : BacktestEngine) (symbol : Symbol) (price : ℚ) (ts : ℕ)
        (funding_cost : ℚ) (pr : Symbol × Position),
      e.positions.find? (fun p => p.1 == symbol) = some pr →
      (∃ tr : Trade,
        (close_position e symbol price ts funding_cost).1 = some tr ∧
        tr.pnl = (if pr.2.side = Side.long then
            ((price * (1 - e.slippage)) - pr.2.entry_price) * pr.2.amount
          else
            (pr.2.entry_price - (price * (1 + e.slippage))) * pr.2.amount) ∧
        tr.fees = (price * (1 - (if pr.2.side = Side.long then e.slippage else - e.slippage)))
            * pr.2.amount * e.trading_fee ∧
        (close_position e symbol price ts funding_cost).2.capital =
          e.capital + tr.pnl - tr.fees - funding_cost)) ∧
    (zeroFeeClosed.1.map Trade.pnl = some 10 ∧
      zeroFeeOpened.2.capital = zeroFeeEngine.capital ∧
      zeroFeeClosed.2.capital = zeroFeeOpened.2.capital + 10) := by
  constructor
  · intro e symbol price ts funding_cost pr hfind
    delta close_position
    rw [hfind]
    refine ⟨_, rfl, ?_, ?_, ?_⟩
    · rcases h : pr.2.side <;> simp [h]
    · rcases h : pr.2.side <;> simp [h]
    · rcases h : pr.2.side <;> simp [h]
  · refine ⟨?_, ?_, ?_⟩ <;>
      norm_num [zeroFeeClosed, zeroFeeOpened, zeroFeeEngine, close_position,
        open_position, entryPosition, mkEngine, hasPosition, List.find?]

/-- C2 witness: the general conjunct applied to the concrete state
reached after opening long at 100 on the zero-fee engine, closing at
price 120 with funding cost 1. -/
theorem C2_close_position_formulas_witness :
    ∃ tr : Trade,
      (close_position zeroFeeOpened.2 "BTC" 120 2 1).1 = some tr ∧
      tr.pnl = ((120 * (1 - zeroFeeOpened.2.slippage)) -
          (("BTC", (⟨"BTC", Side.long, 100, 1, 1, 0, none, none⟩ : Position)) : Symbol × Position).2.entry_price) * 1 ∧
      tr.fees = (120 * (1 - (if Side.long = Side.long then zeroFeeOpened.2.slippage
          else - zeroFeeOpened.2.slippage))) * 1 * zeroFeeOpened.2.trading_fee ∧
      (close_position zeroFeeOpened.2 "BTC" 120 2 1).2.capital =
        zeroFeeOpened.2.capital + tr.pnl - tr.fees - 1 := by
  have h := C2_close_position_formulas.1 zeroFeeOpened.2 "BTC" 120 2 1
    ("BTC", (⟨"BTC", Side.long, 100, 1, 1, 0, none, none⟩ : Position))
    (by norm_num [zeroFeeOpened, zeroFeeEngine, open_position, entryPosition,
      mkEngine, hasPosition, List.find?])
  simpa using h

lemma open_position_dup (e : BacktestEngine) (symbol : Symbol) (side : Side)
    (price amount leverage : ℚ) (ts : ℕ) (tp sl : Option ℚ)
    (h : hasPosition e symbol = true) :
    open_position e symbol side price amount leverage ts tp sl = (false, e) := by
  simp [open_position, h]

lemma open_position_insufficient (e : BacktestEngine) (symbol : Symbol) (side : Side)
    (price amount leverage : ℚ) (ts : ℕ) (tp sl : Option ℚ)
    (h : price * amount / leverage > e.capital) :
    open_position e symbol side price amount leverage ts tp sl = (false, e) := by
  by_cases hp : hasPosition e symbol <;> simp [open_position, hp, h]

lemma open_position_success (e : BacktestEngine) (symbol : Symbol) (side : Side)
    (price amount leverage : ℚ) (ts : ℕ) (tp sl : Option ℚ)
    (h1 : hasPosition e symbol = false)
    (h2 : ¬ price * amount / leverage > e.capital) :
    open_position e symbol side price amount leverage ts tp sl =
      (true,
        { e with
          capital := e.capital - price * amount * e.trading_fee
          positions := e.positions ++
            [(symbol, entryPosition e.slippage symbol side price amount leverage
                ts tp sl)] }) := by
  simp [open_position, h1, h2]

lemma close_position_missing (e : BacktestEngine) (symbol : Symbol) (price : ℚ)
    (ts : ℕ) (funding_cost : ℚ)
    (h : e.positions.find? (fun p => p.1 == symbol) = none) :
    close_position e symbol price ts funding_cost = (none, e) := by
  delta close_position
  rw [h]

/-- Closing a found position produces exactly the trade whose pnl,
fees and funding_cost adjust capital, append it to the trade history,
and erase the position. -/
lemma close_position_found (e : BacktestEngine) (symbol : Symbol) (price : ℚ)
    (ts : ℕ) (funding_cost : ℚ) (pr : Symbol × Position)
    (hfind : e.positions.find? (fun p => p.1 == symbol) = some pr) :
    ∃ tr : Trade,
      close_position e symbol price ts funding_cost =
        (some tr,
          { e with
            capital := e.capital + tr.pnl - tr.fees - tr.funding_cost
            trades := e.trades ++ [tr]
            positions := e.positions.eraseP (fun p => p.1 == symbol) }) := by
  delta close_position
  rw [hfind]
  exact ⟨_, rfl⟩

lemma hasPosition_false_find? (e : BacktestEngine) (symbol : Symbol)
    (h : hasPosition e symbol = false) :
    e.positions.find? (fun p => p.1 == symbol) = none := by
  unfold hasPosition at h
  rw [List.any_eq_false] at h
  rw [List.find?_eq_none]
  exact h

lemma find?_append_singleton (l : List (Symbol × Position)) (symbol : Symbol)
    (pos : Position) (h : l.find? (fun p => p.1 == symbol) = none) :
    (l ++ [(symbol, pos)]).find? (fun p => p.1 == symbol) = some (symbol, pos) := by
  rw [List.find?_append, h]
  simp [List.find?]

/-- C3: every rejected ledger operation returns a negative result and
leaves the whole engine state unchanged: open on an already-held
symbol, open whose required margin requested_price * amount / leverage
exceeds capital, and close of a symbol with no open position; Scenario
B shows the margin rejection at capital 1000, margin 2000.  Totality
of the Lean functions embeds the no-exception part of the claim. -/
theorem C3_rejections_atomic :
    (∀ (e : BacktestEngine) (symbol : Symbol) (side : Side)
        (price amount leverage : ℚ) (ts : ℕ) (tp sl : Option ℚ),
      hasPosition e symbol = true →
      open_position e symbol side price amount leverage ts tp sl = (false, e)) ∧
    (∀ (e : BacktestEngine) (symbol : Symbol) (side : Side)
        (price amount leverage : ℚ) (ts : ℕ) (tp sl : Option ℚ),
      price * amount / leverage > e.capital →
      open_position e symbol side price amount leverage ts tp sl = (false, e)) ∧
    (∀ (e : BacktestEngine) (symbol : Symbol) (price : ℚ) (ts : ℕ)
        (funding_cost : ℚ),
      e.positions.find? (fun p => p.1 == symbol) = none →
      close_position e symbol price ts funding_cost = (none, e)) ∧
    open_position (mkEngine 1000 (1/1000) (1/2000)) "BTC" Side.long 2000 1 1 0 none none
      = (false, mkEngine 1000 (1/1000) (1/2000)) := by
  refine ⟨?_, ?_, ?_, ?_⟩
  · intro e symbol side price amount leverage ts tp sl h
    simp [open_position, h]
  · intro e symbol side price amount leverage ts tp sl h
    by_cases hp : hasPosition e symbol <;> simp [open_position, hp, h]
  · intro e symbol price ts funding_cost h
    delta close_position
    rw [h]
  · norm_num [open_position, mkEngine, hasPosition]

/-- C3 witness: the three rejection conjuncts applied at concrete
states: duplicate open on the Scenario-A engine holding BTC, an
over-margined open on a fresh engine, and a close with no position. -/
theorem C3_rejections_atomic_witness :
    open_position zeroFeeOpened.2 "BTC" Side.short 50 1 1 5 none none
      = (false, zeroFeeOpened.2) ∧
    open_position (mkEngine 10 0 0) "ETH" Side.long 30 1 1 0 none none
      = (false, mkEngine 10 0 0) ∧
    close_position (mkEngine 10 0 0) "ETH" 30 0 0 = (none, mkEngine 10 0 0) := by
  refine ⟨?_, ?_, ?_⟩
  · exact C3_rejections_atomic.1 zeroFeeOpened.2 "BTC" Side.short 50 1 1 5 none none
      (by norm_num [zeroFeeOpened, zeroFeeEngine, open_position, mkEngine, hasPosition])
  · exact C3_rejections_atomic.2.1 (mkEngine 10 0 0) "ETH" Side.long 30 1 1 0 none none
      (by norm_num [mkEngine])
  · exact C3_rejections_atomic.2.2.1 (mkEngine 10 0 0) "ETH" 30 0 0
      (by norm_num [mkEngine])

/-- C1 counterexample: with the code default trading_fee = 0.001 the
entry fee (charged on the requested notional at open, line 111-112 of
backtest_engine.py) is deducted from capital but recorded in no Trade
field, so after an open-close round trip on BTC the capital does not
equal the capital before the open plus the sum of pnl − fees −
funding_cost over the BTC trades: 1009.79 against a reconstructed
1009.89. -/
theorem C1_counterexample :
    feeOpened.1 = true ∧
    feeClosed.2.capital ≠
      feeEngine.capital +
        ((feeClosed.2.trades.filter (fun t => t.symbol == "BTC")).map
          (fun t => t.pnl - t.fees - t.funding_cost)).sum := by
  constructor
  · norm_num [feeOpened, feeEngine, open_position, mkEngine, hasPosition]
  · norm_num [feeClosed, feeOpened, feeEngine, close_position, open_position,
      entryPosition, mkEngine, hasPosition, List.find?, List.filter]

/-- C1 (amended): for any starting state, a successful open_position
immediately followed by close_position on the same symbol yields
exactly one new trade tr, and the capital after the close equals the
capital before the open plus tr.pnl − tr.fees − tr.funding_cost minus
the entry fee requested_price * amount * trading_fee, which the open
deducts from capital without recording it in the Trade; the capital
trajectory is therefore reproducible from the trade log only together
with the per-open entry fees. -/
theorem C1_conservation_with_entry_fee
    (e : BacktestEngine) (symbol : Symbol) (side : Side)
    (price amount leverage : ℚ) (t1 t2 : ℕ) (tp sl : Option ℚ)
    (exit_price funding_cost : ℚ)
    (hopen : (open_position e symbol side price amount leverage t1 tp sl).1 = true) :
    ∃ tr : Trade,
      (close_position (open_position e symbol side price amount leverage t1 tp sl).2
          symbol exit_price t2 funding_cost).1 = some tr ∧
      (close_position (open_position e symbol side price amount leverage t1 tp sl).2
          symbol exit_price t2 funding_cost).2.trades = e.trades ++ [tr] ∧
      (close_position (open_position e symbol side price amount leverage t1 tp sl).2
          symbol exit_price t2 funding_cost).2.capital =
        e.capital + (tr.pnl - tr.fees - tr.funding_cost)
          - price * amount * e.trading_fee := by
  have hnopos : hasPosition e symbol = false := by
    cases h : hasPosition e symbol with
    | false => rfl
    | true =>
      rw [open_position_dup e symbol side price amount leverage t1 tp sl h] at hopen
      simp at hopen
  have hmargin : ¬ price * amount / leverage > e.capital := by
    intro hc
    rw [open_position_insufficient e symbol side price amount leverage t1 tp sl hc] at hopen
    simp at hopen
  rw [open_position_success e symbol side price amount leverage t1 tp sl hnopos hmargin]
  have hfind1 : ({ e with
        capital := e.capital - price * amount * e.trading_fee
        positions := e.positions ++
          [(symbol, entryPosition e.slippage symbol side price amount leverage
              t1 tp sl)] } : BacktestEngine).positions.find?
        (fun p => p.1 == symbol) =
      some (symbol, entryPosition e.slippage symbol side price amount leverage t1 tp sl) :=
    find?_append_singleton _ _ _ (hasPosition_false_find? e symbol hnopos)
  obtain ⟨tr, htr⟩ := close_position_found _ symbol exit_price t2 funding_cost _ hfind1
  rw [htr]
  refine ⟨tr, rfl, by simp, ?_⟩
  dsimp only
  ring

lemma open_position_keys (e : BacktestEngine) (symbol : Symbol) (side : Side)
    (price amount leverage : ℚ) (ts : ℕ) (tp sl : Option ℚ)
    (h : (e.positions.map Prod.fst).Nodup) :
    (((open_position e symbol side price amount leverage ts tp sl).2.positions.map
      Prod.fst).Nodup) := by
  by_cases h1 : hasPosition e symbol
  · rw [open_position_dup e symbol side price amount leverage ts tp sl h1]
    exact h
  · have h1f : hasPosition e symbol = false := by
      revert h1
      cases hasPosition e symbol <;> simp
    by_cases h2 : price * amount / leverage > e.capital
    · rw [open_position_insufficient e symbol side price amount leverage ts tp sl h2]
      exact h
    · rw [open_position_success e symbol side price amount leverage ts tp sl h1f h2]
      rw [List.map_append, List.nodup_append]
      refine ⟨h, by simp, ?_⟩
      intro a ha hb
      simp only [List.map_cons, List.map_nil, List.mem_singleton] at hb
      subst hb
      unfold hasPosition at h1f
      rw [List.any_eq_false] at h1f
      obtain ⟨p, hp, hfst⟩ := List.mem_map.mp ha
      exact absurd (by simp [hfst]) (h1f p hp)

lemma close_position_keys (e : BacktestEngine) (symbol : Symbol) (price : ℚ)
    (ts : ℕ) (funding_cost : ℚ) (h : (e.positions.map Prod.fst).Nodup) :
    (((close_position e symbol price ts funding_cost).2.positions.map
      Prod.fst).Nodup) := by
  cases hfind : e.positions.find? (fun p => p.1 == symbol) with
  | none =>
    rw [close_position_missing e symbol price ts funding_cost hfind]
    exact h
  | some pr =>
    obtain ⟨tr, htr⟩ := close_position_found e symbol price ts funding_cost pr hfind
    rw [htr]
    exact ((List.eraseP_sublist e.positions).map Prod.fst).nodup h

/-- Each reachable engine state has pairwise distinct position keys. -/
lemma reachable_keys_nodup (e : BacktestEngine) (h : Reachable e) :
    (e.positions.map Prod.fst).Nodup := by
  induction h with
  | init initial_capital trading_fee slippage => simp [mkEngine]
  | open_step e symbol side price amount leverage ts tp sl _ ih =>
    exact open_position_keys e symbol side price amount leverage ts tp sl ih
  | close_step e symbol price ts funding_cost _ ih =>
    exact close_position_keys e symbol price ts funding_cost ih
  | equity_step e ts prices _ ih => exact ih
  | metrics_step e _ ih => exact ih

lemma filter_key_length_le_one (l : List (Symbol × Position)) (symbol : Symbol)
    (h : (l.map Prod.fst).Nodup) :
    (l.filter (fun p => p.1 == symbol)).length ≤ 1 := by
  induction l with
  | nil => simp
  | cons a t ih =>
    rw [List.map_cons, List.nodup_cons] at h
    by_cases ha : a.1 == symbol
    · have hsym : a.1 = symbol := by simpa using ha
      have htail : t.filter (fun p => p.1 == symbol) = [] := by
        rw [List.filter_eq_nil_iff]
        intro b hb hbsym
        apply h.1
        rw [hsym, ← show b.1 = symbol by simpa using hbsym]
        exact List.mem_map.mpr ⟨b, hb, rfl⟩
      simp [List.filter_cons, ha, htail]
    · rw [List.filter_cons, if_neg ha]
      exact ih h.2

/-- C4: in every reachable engine state each symbol has at most one
open Position, and an open_position call on a symbol that already has
one is rejected with the state unchanged, preserving the invariant. -/
theorem C4_at_most_one_position_per_symbol (e : BacktestEngine)
    (h : Reachable e) (symbol : Symbol) :
    (e.positions.filter (fun p => p.1 == symbol)).length ≤ 1 ∧
    (hasPosition e symbol = true →
      ∀ (side : Side) (price amount leverage : ℚ) (ts : ℕ) (tp sl : Option ℚ),
        open_position e symbol side price amount leverage ts tp sl = (false, e)) := by
  refine ⟨filter_key_length_le_one e.positions symbol (reachable_keys_nodup e h), ?_⟩
  intro hdup side price amount leverage ts tp sl
  exact open_position_dup e symbol side price amount leverage ts tp sl hdup

/-- C4 witness: the invariant theorem applied to the reachable state
holding an open BTC position, whose duplicate-open hypothesis is
discharged concretely. -/
theorem C4_at_most_one_position_per_symbol_witness :
    (zeroFeeOpened.2.positions.filter (fun p => p.1 == "BTC")).length ≤ 1 ∧
    open_position zeroFeeOpened.2 "BTC" Side.long 90 1 1 9 none none
      = (false, zeroFeeOpened.2) := by
  have hreach : Reachable zeroFeeOpened.2 :=
    Reachable.open_step zeroFeeEngine "BTC" Side.long 100 1 1 0 none none
      (Reachable.init 1000 0 0)
  have h := C4_at_most_one_position_per_symbol zeroFeeOpened.2 hreach "BTC"
  exact ⟨h.1, h.2 (by norm_num [zeroFeeOpened, zeroFeeEngine, open_position,
    entryPosition, mkEngine, hasPosition]) Side.long 90 1 1 9 none none⟩

lemma equity_foldl_filterMap (prices : List (Symbol × ℚ))
    (l : List (Symbol × Position)) (acc : ℚ) :
    l.foldl
      (fun acc p =>
        match prices.lookup p.1 with
        | some current_price => acc + unrealized_pnl p.2 current_price
        | none => acc)
      acc =
    acc + ((l.filterMap
      (fun p => (prices.lookup p.1).map (fun price => unrealized_pnl p.2 price))).sum) := by
  induction l generalizing acc with
  | nil => simp
  | cons a t ih =>
    rw [List.foldl_cons, List.filterMap_cons]
    cases h : prices.lookup a.1 with
    | none =>
      show List.foldl _ acc t = acc + (List.filterMap _ t).sum
      exact ih acc
    | some current_price =>
      show List.foldl _ (acc + unrealized_pnl a.2 current_price) t =
        acc + ((unrealized_pnl a.2 current_price) :: List.filterMap _ t).sum
      rw [ih, List.sum_cons]
      ring

/-- C10: update_equity never fails, skips every open position whose
symbol is absent from the supplied price map, and appends exactly one
equity point equal to capital plus the summed unrealized P&L of the
positions whose symbols are priced; capital, positions and trades are
untouched. -/
theorem C10_update_equity_skips_unpriced (e : BacktestEngine) (ts : ℕ)
    (prices : List (Symbol × ℚ)) :
    update_equity e ts prices =
      { e with
        equity_curve := e.equity_curve ++
          [(ts, e.capital + ((e.positions.filterMap
            (fun p => (prices.lookup p.1).map
              (fun price => unrealized_pnl p.2 price))).sum))] } := by
  unfold update_equity
  rw [equity_foldl_filterMap]

lemma cummax_zipWith_bounds (l : List ℚ) (m : ℚ) (hm : 0 < m)
    (hl : ∀ x ∈ l, 0 < x) :
    ∀ d ∈ (cummax m l).zipWith (fun m x => (m - x) / m) l, 0 ≤ d ∧ d ≤ 1 := by
  induction l generalizing m with
  | nil => simp [cummax]
  | cons x xs ih =>
    intro d hd
    rw [show cummax m (x :: xs) = max m x :: cummax (max m x) xs from rfl] at hd
    rw [List.zipWith_cons_cons] at hd
    rcases List.mem_cons.mp hd with h | h
    · subst h
      have hx : 0 < x := hl x (List.mem_cons_self x xs)
      have hmx : 0 < max m x := lt_max_of_lt_right hx
      constructor
      · apply div_nonneg _ (le_of_lt hmx)
        simp [le_max_right m x]
      · rw [div_le_one hmx]
        linarith
    · exact ih (max m x) (lt_max_of_lt_right (hl x (List.mem_cons_self x xs)))
        (fun y hy => hl y (List.mem_cons_of_mem x hy)) d h

lemma foldl_max_bounds (xs : List ℚ) (a : ℚ) (ha0 : 0 ≤ a) (ha1 : a ≤ 1)
    (hxs : ∀ x ∈ xs, 0 ≤ x ∧ x ≤ 1) :
    0 ≤ xs.foldl max a ∧ xs.foldl max a ≤ 1 := by
  induction xs generalizing a with
  | nil => exact ⟨ha0, ha1⟩
  | cons x t ih =>
    rw [List.foldl_cons]
    have hx := hxs x (List.mem_cons_self x t)
    exact ih (max a x) (le_max_of_le_left ha0) (max_le ha1 hx.2)
      (fun y hy => hxs y (List.mem_cons_of_mem x hy))

/-- C9: on every nonempty equity series with strictly positive values
the maximum drawdown, the max over time of (running_max − equity) /
running_max, lies in the closed interval from 0 to 1. -/
theorem C9_max_drawdown_bounds (equity_curve : List ℚ)
    (hne : equity_curve ≠ [])
    (hpos : ∀ x ∈ equity_curve, 0 < x) :
    0 ≤ calculate_max_drawdown equity_curve ∧
      calculate_max_drawdown equity_curve ≤ 1 := by
  rcases equity_curve with _ | ⟨x, xs⟩
  · exact absurd rfl hne
  have hx : 0 < x := hpos x (List.mem_cons_self x xs)
  have hhead : (x - x) / x = 0 := by
    rw [sub_self, zero_div]
  have hdd : drawdowns (x :: xs) =
      ((x - x) / x) :: (cummax x xs).zipWith (fun m y => (m - y) / m) xs := by
    rw [drawdowns]
    rw [show rolling_max (x :: xs) = x :: cummax x xs from rfl]
    rw [List.zipWith_cons_cons]
  rw [calculate_max_drawdown, hdd, hhead]
  rw [show seriesMax (0 :: (cummax x xs).zipWith (fun m y => (m - y) / m) xs) =
      ((cummax x xs).zipWith (fun m y => (m - y) / m) xs).foldl max 0 from rfl]
  exact foldl_max_bounds _ 0 le_rfl zero_le_one
    (cummax_zipWith_bounds xs x hx (fun y hy => hpos y (List.mem_cons_of_mem x hy)))

/-- C9 witness: the drawdown bounds at the concrete equity series
100, 120, 90. -/
theorem C9_max_drawdown_bounds_witness :
    0 ≤ calculate_max_drawdown [100, 120, 90] ∧
      calculate_max_drawdown [100, 120, 90] ≤ 1 :=
  C9_max_drawdown_bounds [100, 120, 90] (by simp) (by norm_num)

/-- C7: calculate_liquidation_risk agrees with the specification
formula everywhere, its value always lies between 0 and 1, and
Scenario E (margin ratio 0.1, volatility 0.5, leverage 5, margin
buffer 0.2, the constructor defaults) returns 1. -/
theorem C7_liquidation_risk_clamped :
    (∀ (rm : RiskManager) (mr volatility : ℚ),
      calculate_liquidation_risk rm mr volatility =
        spec_liquidation_risk mr volatility rm.max_leverage rm.margin_buffer ∧
      0 ≤ calculate_liquidation_risk rm mr volatility ∧
      calculate_liquidation_risk rm mr volatility ≤ 1) ∧
    calculate_liquidation_risk (mkRiskManager 10000) (1/10) (1/2) = 1 := by
  constructor
  · intro rm mr volatility
    refine ⟨rfl, ?_, ?_⟩ <;> rw [calculate_liquidation_risk] <;>
      dsimp only <;> split
    · exact zero_le_one
    · exact le_min (le_max_right _ 0) zero_le_one
    · exact le_rfl
    · exact min_le_right _ 1
  · norm_num [calculate_liquidation_risk, mkRiskManager]

/-- C6: the code does not special-case zero volatility: at volatility
0 line 61 evaluates 2 / 0, which on Python floats raises
ZeroDivisionError instead of returning max_leverage, here the none
result at the concrete failing input capital 1000, price 100,
volatility 0 with the constructor defaults. -/
theorem C6_zero_volatility_faults :
    calculate_position_size mkStrategy 1000 100 0 = none := by
  norm_num [calculate_position_size, mkStrategy]

/-- C8 counterexample: the singleton all-nonnegative returns series
0.01 has no negative observation, yet the Sortino computation returns
the 0 sentinel of its fewer-than-two-observations guard (line 244),
not +infinity as the claim states for every such series. -/
theorem C8_counterexample :
    ([(1:ℚ)/100].filter (fun r => r < 0)) = [] ∧
    calculate_sortino [(1:ℚ)/100] (1/50) = ((0:ℝ) : WithTop ℝ) ∧
    ((0:ℝ) : WithTop ℝ) ≠ (⊤ : WithTop ℝ) := by
  refine ⟨by norm_num [List.filter], ?_, WithTop.coe_ne_top⟩
  rw [calculate_sortino, if_pos (by norm_num)]

/-- C8 (amended): on every returns series with at least two
observations and no negative observation the Sortino computation
returns the +infinity sentinel, and on every trade list with no
losing trade profit_factor returns the +infinity sentinel; series
with fewer than two observations instead hit the 0 guard of line
244. -/
theorem C8_infinity_sentinels :
    (∀ (returns : List ℚ) (risk_free_rate : ℚ),
      2 ≤ returns.length →
      returns.filter (fun r => r < 0) = [] →
      calculate_sortino returns risk_free_rate = ⊤) ∧
    (∀ trades : List Trade,
      trades.filter (fun t => t.pnl < 0) = [] →
      calculate_profit_factor trades = ⊤) := by
  constructor
  · intro returns risk_free_rate hlen hfilter
    rw [calculate_sortino, if_neg (by omega)]
    dsimp only
    rw [hfilter]
    simp
  · intro trades hfilter
    rw [calculate_profit_factor, hfilter]
    simp

/-- C8 witness: the sentinel theorem applied to the concrete
two-element positive returns series 0.01, 0.02 and to the one-trade
list whose only trade has positive pnl. -/
theorem C8_infinity_sentinels_witness :
    calculate_sortino [(1:ℚ)/100, 1/50] (1/50) = ⊤ ∧
    calculate_profit_factor [demoTrade] = ⊤ := by
  constructor
  · exact C8_infinity_sentinels.1 [(1:ℚ)/100, 1/50] (1/50) (by norm_num)
      (by norm_num [List.filter])
  · exact C8_infinity_sentinels.2 [demoTrade]
      (by norm_num [List.filter, demoTrade])

lemma four_point_std_lower (r0 r1 r2 r3 b : ℝ) (hb : 0 ≤ b)
    (hgap : b ≤ r0 - r1) :
    Real.sqrt (b^2/8) ≤ npStd [r0, r1, r2, r3] := by
  have hmu : mean [r0, r1, r2, r3] = (r0 + r1 + r2 + r3)/4 := by
    simp [mean, List.sum_cons, List.sum_nil]
    ring
  rw [npStd]
  apply Real.sqrt_le_sqrt
  simp only [List.map_cons, List.map_nil, List.sum_cons, List.sum_nil,
    List.length_cons, List.length_nil, hmu]
  push_cast
  nlinarith [hgap, hb, sq_nonneg (r0 + r1 - 2*((r0 + r1 + r2 + r3)/4)),
    sq_nonneg (r2 - (r0 + r1 + r2 + r3)/4), sq_nonneg (r3 - (r0 + r1 + r2 + r3)/4)]

/-- C5 counterexample: on the window 100, 101, 99, 100, 102 the code
returns 0 because the history is shorter than the default window 20,
while the closed-form log-return standard deviation scaled by
sqrt(24) exceeds 0.01, so the two differ by far more than the 1e-9
tolerance; the code also annualizes by the fixed sqrt(252), having no
annualization parameter at all. -/
theorem C5_counterexample :
    |calculate_volatility [100, 101, 99, 100, 102] 20 -
      spec_volatility 24 [100, 101, 99, 100, 102]| > 1/1000000000 := by
  have hcv : calculate_volatility [100, 101, 99, 100, 102] 20 = 0 := by
    rw [calculate_volatility, if_pos (by norm_num)]
  have hdiff : npDiff (([100, 101, 99, 100, 102] : List ℝ).map Real.log) =
      [Real.log 101 - Real.log 100, Real.log 99 - Real.log 101,
       Real.log 100 - Real.log 99, Real.log 102 - Real.log 100] := rfl
  have h1 : Real.log 100 - Real.log 101 ≤ -(1/101) := by
    have h0 : Real.log ((100:ℝ)/101) ≤ (100:ℝ)/101 - 1 :=
      Real.log_le_sub_one_of_pos (by norm_num)
    rw [Real.log_div (by norm_num) (by norm_num)] at h0
    linarith
  have h2 : Real.log 99 - Real.log 101 ≤ -(2/101) := by
    have h0 : Real.log ((99:ℝ)/101) ≤ (99:ℝ)/101 - 1 :=
      Real.log_le_sub_one_of_pos (by norm_num)
    rw [Real.log_div (by norm_num) (by norm_num)] at h0
    linarith
  have hgap : (3/101 : ℝ) ≤
      (Real.log 101 - Real.log 100) - (Real.log 99 - Real.log 101) := by
    linarith
  have hstd : Real.sqrt (((3:ℝ)/101)^2/8) ≤
      npStd [Real.log 101 - Real.log 100, Real.log 99 - Real.log 101,
        Real.log 100 - Real.log 99, Real.log 102 - Real.log 100] :=
    four_point_std_lower _ _ _ _ _ (by norm_num) hgap
  have hsqrtlb : (1/100 : ℝ) ≤ Real.sqrt (((3:ℝ)/101)^2/8) := by
    rw [Real.le_sqrt (by norm_num) (by norm_num)]
    norm_num
  have h24 : (1:ℝ) ≤ Real.sqrt 24 := Real.one_le_sqrt.mpr (by norm_num)
  have hnn : 0 ≤ npStd [Real.log 101 - Real.log 100, Real.log 99 - Real.log 101,
      Real.log 100 - Real.log 99, Real.log 102 - Real.log 100] :=
    Real.sqrt_nonneg _
  have hspec : spec_volatility 24 [100, 101, 99, 100, 102] =
      npStd [Real.log 101 - Real.log 100, Real.log 99 - Real.log 101,
        Real.log 100 - Real.log 99, Real.log 102 - Real.log 100] * Real.sqrt 24 := by
    rw [spec_volatility, hdiff]
  have hlb : (1/100 : ℝ) ≤ spec_volatility 24 [100, 101, 99, 100, 102] := by
    rw [hspec]
    nlinarith [hstd, hsqrtlb, h24, hnn]
  have hpos : (0:ℝ) ≤ spec_volatility 24 [100, 101, 99, 100, 102] := by
    linarith
  rw [hcv, zero_sub, abs_neg, abs_of_nonneg hpos]
  linarith

/-- C5 (amended): whenever the price history holds at least `window`
samples with window at least 2, calculate_volatility equals the
specification formula instantiated with annualization fixed at 252 and
applied to the last `window` prices; histories shorter than the window
give 0, so in particular any history of fewer than 2 samples gives 0
for every window of at least 2.  The annualization-period argument of
the claim does not exist in the code, and Scenario C with
annualization 24 is not produced. -/
theorem C5_volatility_formula :
    (∀ (price_history : List ℝ) (window : ℕ),
      2 ≤ window → window ≤ price_history.length →
      calculate_volatility price_history window =
        spec_volatility 252 (lastWindow price_history window)) ∧
    (∀ (price_history : List ℝ) (window : ℕ),
      price_history.length < window →
      calculate_volatility price_history window = 0) := by
  constructor
  · intro price_history window h2 hlen
    rw [calculate_volatility, if_neg (by omega), spec_volatility]
  · intro price_history window hlen
    rw [calculate_volatility, if_pos hlen]

/-- C5 witness: the amended formula at the five-price window itself
taken as the window length, and the zero guard on a one-price
history against the default window 20. -/
theorem C5_volatility_formula_witness :
    calculate_volatility [100, 101, 99, 100, 102] 5 =
      spec_volatility 252 (lastWindow [100, 101, 99, 100, 102] 5) ∧
    calculate_volatility [100] 20 = 0 := by
  constructor
  · exact C5_volatility_formula.1 [100, 101, 99, 100, 102] 5 (by norm_num)
      (by norm_num)
  · exact C5_volatility_formula.2 [100] 20 (by norm_num)

/-- C1 witness: the amended conservation law applied to the concrete
fee-charging engine, its open hypothesis discharged by evaluation. -/
theorem C1_conservation_with_entry_fee_witness :
    ∃ tr : Trade,
      (close_position (open_position feeEngine "BTC" Side.long 100 1 1 0 none none).2
          "BTC" 110 1 0).1 = some tr ∧
      (close_position (open_position feeEngine "BTC" Side.long 100 1 1 0 none none).2
          "BTC" 110 1 0).2.trades = feeEngine.trades ++ [tr] ∧
      (close_position (open_position feeEngine "BTC" Side.long 100 1 1 0 none none).2
          "BTC" 110 1 0).2.capital =
        feeEngine.capital + (tr.pnl - tr.fees - tr.funding_cost)
          - 100 * 1 * feeEngine.trading_fee :=
  C1_conservation_with_entry_fee feeEngine "BTC" Side.long 100 1 1 0 1 none none 110 0
    (by norm_num [feeEngine, open_position, entryPosition, mkEngine, hasPosition])

end Backtest
